import Mathlib

/-!
Verification development for a FreeCell-style solitaire engine
(board containers in `board.py`, game controller and history in `freecell.py`).

Cards are modelled with an unbounded integer rank (`number`) and a suit index
(`suit`, 0..3 in the game; parity of the index is the color class).  Container
stacks are Lean lists, bottom of the stack first, top of the stack last, so the
source's `self[-1]` is `List.getLast?` and `self.stack.append(card)` is
`s ++ [c]`.
-/

/-- A playing card: `number` is the rank (Python int), `suit` the suit index. -/
structure Card where
  number : Int
  suit : Nat
deriving DecidableEq, Repr

/-- The container kinds of the board: base `Slot`, `FoundationSlot`,
`ReserveSlot` and `TableauSlot`. -/
inductive SlotKind where
  | plain
  | foundation
  | reserve
  | tableau
deriving DecidableEq, Repr

/-- `put_single` of each slot class.  `none` models the raised `ValueError`
(the stack is untouched in that case, since the exception is raised before any
append).

* base `Slot.put_single`: unconditional append;
* `FoundationSlot.put_single`: empty slot accepts only `card.number == 1`;
  otherwise requires `card.suit == topmost.suit and card.number == topmost.number + 1`;
* `ReserveSlot.put_single`: accepts only if `self.is_empty()`;
* `TableauSlot.put_single`: empty slot accepts anything; otherwise requires
  `card.number == topmost.number - 1 and card.suit.index % 2 != topmost.suit.index % 2`.
-/
def put_single (k : SlotKind) (s : List Card) (c : Card) : Option (List Card) :=
  match k with
  | .plain => some (s ++ [c])
  | .foundation =>
    match s.getLast? with
    | none => if c.number = 1 then some (s ++ [c]) else none
    | some t => if c.suit = t.suit ∧ c.number = t.number + 1 then some (s ++ [c]) else none
  | .reserve => if s.isEmpty then some (s ++ [c]) else none
  | .tableau =>
    match s.getLast? with
    | none => some (s ++ [c])
    | some t => if c.number = t.number - 1 ∧ c.suit % 2 ≠ t.suit % 2 then some (s ++ [c]) else none

/-- The loop body of `Slot.put` on an iterable: apply `put_single` to each card
in order; `none` as soon as one raises. -/
def put_loop (k : SlotKind) : List Card → List Card → Option (List Card)
  | s, [] => some s
  | s, c :: cs =>
    match put_single k s c with
    | some s2 => put_loop k s2 cs
    | none => none

/-- `Slot.put` on an iterable, with the `freeze`/`revert` protection: on success
the appended stack is kept, on a `ValueError` the stack is reverted to the
pre-call state (second component `false` models the re-raised error). -/
def put_iter (k : SlotKind) (s cs : List Card) : List Card × Bool :=
  match put_loop k s cs with
  | some s2 => (s2, true)
  | none => (s, false)

/-- `Slot.put` on a single `Card` argument: `put_single` directly, the stack is
unchanged when the error is raised. -/
def put_card (k : SlotKind) (s : List Card) (c : Card) : List Card × Bool :=
  match put_single k s c with
  | some s2 => (s2, true)
  | none => (s, false)

/-- The pairwise placement relation of a kind: card `b` may be placed when card
`a` is the topmost card. -/
def canFollow (k : SlotKind) (a b : Card) : Bool :=
  (put_single k [a] b).isSome

/-- A stack satisfies the kind's placement predicate for every adjacent pair
(bottom to top). -/
def pairwiseOk (k : SlotKind) : List Card → Bool
  | [] => true
  | _ :: [] => true
  | a :: b :: rest => canFollow k a b && pairwiseOk k (b :: rest)

/-- The Python slice `slot[-k:]` for `k ≥ 1`: the trailing `k` cards (the whole
stack when `k` exceeds the length, the empty list on an empty stack). -/
def trailing (src : List Card) (n : Nat) : List Card :=
  src.drop (src.length - n)

/-- `Slot.receive_from(slot, max_cards)`: try run lengths `k` from `max_cards`
down to 1; the first `k` whose trailing-`k` slice can be `put` wins, the slice
is then removed from the source by `pop_from(-k)` (`self[:-k]`, i.e.
`take (length - k)`); otherwise return `False` with both stacks unchanged.
The fuel argument is `max_cards`. -/
def receive_from (k : SlotKind) (dst src : List Card) : Nat → List Card × List Card × Bool
  | 0 => (dst, src, false)
  | n + 1 =>
    match put_loop k dst (trailing src (n + 1)) with
    | some d2 => (d2, src.take (src.length - (n + 1)), true)
    | none => receive_from k dst src n

/-- The `receive_from` method actually invoked on each slot class:
`ReserveSlot.receive_from` overrides the inherited method and forces
`max_cards=1`; the other classes inherit `Slot.receive_from` unchanged. -/
def receive_dispatch (k : SlotKind) (dst src : List Card) (maxCards : Nat) :
    List Card × List Card × Bool :=
  match k with
  | .reserve => receive_from .reserve dst src 1
  | _ => receive_from k dst src maxCards

/-- Whether the trailing-`n` slice of the source can be appended to the
destination (the `try` in `receive_from` not raising). -/
def try_len (k : SlotKind) (dst src : List Card) (n : Nat) : Bool :=
  (put_loop k dst (trailing src n)).isSome

/-- The sequence `Ace, 2, ..., n`, all of suit `u` (bottom to top). -/
def fRun (u : Nat) : Nat → List Card
  | 0 => []
  | n + 1 => fRun u n ++ [⟨(n : Int) + 1, u⟩]

/-- A stack is a foundation run for some suit. -/
def isFRun (s : List Card) : Prop :=
  ∃ u n, s = fRun u n

/-- The board of `freecell.py`: 4 reserve slots, 4 foundation slots, 8 tableau
slots, in the fixed order of the module-level lists. -/
structure Board where
  reserve : List (List Card)
  foundation : List (List Card)
  tableau : List (List Card)
deriving DecidableEq, Repr

/-- A position on the board: index into one of the three slot groups. -/
inductive Pos where
  | res : Nat → Pos
  | fnd : Nat → Pos
  | tab : Nat → Pos
deriving DecidableEq, Repr

/-- The slot class at a board position. -/
def kindOf : Pos → SlotKind
  | .res _ => .reserve
  | .fnd _ => .foundation
  | .tab _ => .tableau

/-- The card stack at a board position. -/
def boardGet (b : Board) : Pos → List Card
  | .res i => b.reserve.getD i []
  | .fnd i => b.foundation.getD i []
  | .tab i => b.tableau.getD i []

/-- Replace the card stack at a board position. -/
def boardSet (b : Board) : Pos → List Card → Board
  | .res i, v => { b with reserve := b.reserve.set i v }
  | .fnd i, v => { b with foundation := b.foundation.set i v }
  | .tab i, v => { b with tableau := b.tableau.set i v }

/-- `count_empty(iterable_slots)`. -/
def count_empty (l : List (List Card)) : Nat :=
  l.countP List.isEmpty

/-- The mutable module state of `freecell.py` that the claims are about: the
board plus the history stacks.  `history_current` is `None` only before
`init()` performs the first `save_board_state()`, so states from `init` onward
always carry a current snapshot and we model `current` as always present (the
`if history_current:` test in `save_board_state` is then always true, a
non-empty tuple being truthy).  The head of `past`/`future` is the most
recently pushed snapshot. -/
structure GameState where
  board : Board
  past : List Board
  current : Board
  future : List Board
deriving DecidableEq, Repr

/-- `save_board_state()`: push `history_current` onto `history`, snapshot the
live board (`slot.save()` copies every stack) as the new `history_current`,
and clear `history_future`. -/
def save_board_state (st : GameState) : GameState :=
  { st with past := st.current :: st.past, current := st.board, future := [] }

/-- `step_back()` = `_history_step(from_stack=history, to_stack=history_future)`:
pop the most recent past snapshot (silent no-op returning a falsy value when
empty), push `history_current` onto `history_future`, make the popped snapshot
the new `history_current` and load it into every slot.  This is a value-level
restore: `Slot.load` actually executes `self.stack = from_stack`, aliasing the
snapshot's list objects into the slots, which this pure model cannot express —
the reference-level model below (`HState`, `hbStepBack`) captures that
aliasing, and only statements insensitive to it are proved over this
definition. -/
def step_back (st : GameState) : GameState × Bool :=
  match st.past with
  | [] => (st, false)
  | p :: rest =>
    ({ board := p, past := rest, current := p, future := st.current :: st.future }, true)

/-- `step_forward()` = `_history_step(from_stack=history_future, to_stack=history)`,
with the same value-level-restore caveat as `step_back`. -/
def step_forward (st : GameState) : GameState × Bool :=
  match st.future with
  | [] => (st, false)
  | p :: rest =>
    ({ board := p, past := st.current :: st.past, current := p, future := rest }, true)

/-- One `fnd.receive_from(tab, max_cards=1)` attempt of `push_to_foundation`. -/
def promote_one (b : Board) (ti fi : Nat) : Board :=
  let r := receive_from .foundation (b.foundation.getD fi []) (b.tableau.getD ti []) 1
  { b with foundation := b.foundation.set fi r.1, tableau := b.tableau.set ti r.2.1 }

/-- `push_to_foundation()`: attempt `fnd.receive_from(tab, max_cards=1)` for
every tableau slot (outer loop) and every foundation slot (inner loop),
mutating the board as it goes. -/
def push_to_foundation (b : Board) : Board :=
  (List.range 8).foldl
    (fun acc ti => (List.range 4).foldl (fun acc2 fi => promote_one acc2 ti fi) acc) b

/-- The board mutation and result flag of
`slot.receive_from(_focus, max_cards=(1 + count_empty(tableau)) * (1 + count_empty(reserve)))`
in `click`, dispatched through the clicked slot's own `receive_from` method
(`dst` is the clicked slot, `src` is the focused slot). -/
def applyReceive (b : Board) (dst src : Pos) : Board × Bool :=
  let m := (1 + count_empty b.tableau) * (1 + count_empty b.reserve)
  let r := receive_dispatch (kindOf dst) (boardGet b dst) (boardGet b src) m
  (boardSet (boardSet b src r.2.1) dst r.1, r.2.2)

/-- Full processing of a primary click on slot `dst` while slot `src` is
focused (`dst ≠ src` branch of `click`): perform the receive, and when it
reports a change run `save_board_state()`; the branch returns `True` either
way, so the main loop then always runs `push_to_foundation()` before
redrawing. -/
def primaryMoveEvent (st : GameState) (dst src : Pos) : GameState :=
  let r := applyReceive st.board dst src
  let st2 := { st with board := r.1 }
  let st3 := if r.2 then save_board_state st2 else st2
  { st3 with board := push_to_foundation st3.board }

/-- Full processing of an undo keypress: `step_back()`, and when it succeeded
(truthy return) the main loop runs `push_to_foundation()`. -/
def undoEvent (st : GameState) : GameState :=
  let r := step_back st
  if r.2 then { r.1 with board := push_to_foundation r.1.board } else r.1

/-- Full processing of a redo keypress: `step_forward()`, and when it succeeded
the main loop runs `push_to_foundation()`. -/
def redoEvent (st : GameState) : GameState :=
  let r := step_forward st
  if r.2 then { r.1 with board := push_to_foundation r.1.board } else r.1

/-- A heap of Python list objects, addressed by allocation index.  This model
keeps object identity, which the pure-value model above cannot express: it is
needed to reason about `Slot.save` (which copies), `Slot.load` (which aliases)
and `Slot.put_single` (which mutates the pointed-to list in place). -/
structure Heap where
  mem : List (List Card)
deriving DecidableEq, Repr

/-- Contents of the list object at reference `r`. -/
def Heap.get (h : Heap) (r : Nat) : List Card :=
  h.mem.getD r []

/-- Allocate a fresh list object. -/
def Heap.alloc (h : Heap) (v : List Card) : Heap × Nat :=
  ({ mem := h.mem ++ [v] }, h.mem.length)

/-- Overwrite the list object at reference `r` in place. -/
def Heap.setRef (h : Heap) (r : Nat) (v : List Card) : Heap :=
  { mem := h.mem.set r v }

/-- The history machinery of `freecell.py` restricted to a single tableau slot,
with object identity: `slotRef` is the list object `self.stack` points at, and
the history stacks hold references to snapshot list objects. -/
structure HGame where
  heap : Heap
  slotRef : Nat
  past : List Nat
  current : Option Nat
  future : List Nat
deriving DecidableEq, Repr

/-- `save_board_state()` at single-slot granularity: `slot.save()` returns
`self.stack.copy()`, a fresh list object; the previous `history_current` (when
set) is pushed onto `history` and `history_future` is cleared. -/
def hsave (g : HGame) : HGame :=
  let a := g.heap.alloc (g.heap.get g.slotRef)
  { g with
    heap := a.1,
    past := (match g.current with | some c => c :: g.past | none => g.past),
    current := some a.2,
    future := [] }

/-- `Slot.put` with a single card on the tableau slot:
`TableauSlot.put_single` checks the card against the topmost one and on
success `self.stack.append(card)` mutates the pointed-to list object in
place. -/
def hput (g : HGame) (c : Card) : HGame × Bool :=
  match put_single .tableau (g.heap.get g.slotRef) c with
  | some s2 => ({ g with heap := g.heap.setRef g.slotRef s2 }, true)
  | none => (g, false)

/-- `step_back()` at single-slot granularity: pop the most recent past
snapshot, push `history_current` onto the future stack, and restore via
`Slot.load(from_stack)`, which executes `self.stack = from_stack` — the slot
now aliases the very list object stored in the history entry (no copy). -/
def hstep_back (g : HGame) : HGame :=
  match g.past with
  | [] => g
  | p :: rest =>
    { g with
      past := rest,
      future := (match g.current with | some c => c :: g.future | none => g.future),
      current := some p,
      slotRef := p }

/-- Heap-model trace: a single tableau slot dealt a 7 of spades; `init()`
saves; a legal move (6 of hearts) is played and saved; one undo; then a
different legal move (6 of diamonds) is played. -/
def hg0 : HGame :=
  { heap := { mem := [[⟨7, 0⟩]] }, slotRef := 0, past := [], current := none, future := [] }

/-- After the `init()` save: snapshot object 1 is created holding the 7 of spades. -/
def hg1 : HGame := hsave hg0

/-- After putting the 6 of hearts (a confirmed move's board mutation). -/
def hg2 : HGame := (hput hg1 ⟨6, 1⟩).1

/-- After that move's `save_board_state()`. -/
def hg3 : HGame := hsave hg2

/-- After an undo: the slot now aliases snapshot object 1. -/
def hg4 : HGame := hstep_back hg3

/-- After the next move puts the 6 of diamonds: the in-place append lands in
snapshot object 1, which is still the `history_current` entry. -/
def hg5 : HGame := (hput hg4 ⟨6, 3⟩).1

/-- Initial board of the concrete scenarios: 7 of spades on the first tableau
column, 6 of hearts on the second, everything else empty. -/
def board0 : Board :=
  { reserve := [[], [], [], []],
    foundation := [[], [], [], []],
    tableau := [[⟨7, 0⟩], [⟨6, 1⟩], [], [], [], [], [], []] }

/-- State right after `init()` (the initial `save_board_state()` has run). -/
def st0 : GameState :=
  { board := board0, past := [], current := board0, future := [] }

/-- Board for the auto-promotion counterexample: an Ace of spades on tableau 0,
a 7 of spades on tableau 1, everything else empty. -/
def boardCE : Board :=
  { reserve := [[], [], [], []],
    foundation := [[], [], [], []],
    tableau := [[⟨1, 0⟩], [⟨7, 0⟩], [], [], [], [], [], []] }

/-- State right after `init()` for the auto-promotion counterexample. -/
def stCE : GameState :=
  { board := boardCE, past := [], current := boardCE, future := [] }

/-- The adjacent pairs created by appending a run to a stack: the junction
between the previous top card and the run's first card (when both exist),
followed by the run itself. -/
def appended_pairs (s cs : List Card) : List Card :=
  match s.getLast? with
  | none => cs
  | some t => t :: cs

/-- The stack contents produced by the in-place appends of `Slot.put` before a
failing `put_single` raises: the longest prefix of the run that places
successfully (the raise happens before the failing append, and `revert` only
rebinds `self.stack`, it does not undo appends already made to the original
list object). -/
def put_applied (k : SlotKind) : List Card → List Card → List Card
  | s, [] => s
  | s, c :: cs =>
    match put_single k s c with
    | some s2 => put_applied k s2 cs
    | none => s

/-- A full board at the reference level: each slot's `self.stack` is a pointer
to a heap list object. -/
structure RBoard where
  reserve : List Nat
  foundation : List Nat
  tableau : List Nat
deriving DecidableEq, Repr

/-- The list-object reference held by the slot at a position. -/
def rbGet (rb : RBoard) : Pos → Nat
  | .res i => rb.reserve.getD i 0
  | .fnd i => rb.foundation.getD i 0
  | .tab i => rb.tableau.getD i 0

/-- Rebind the slot at a position to another list object (`self.stack = ...`). -/
def rbSet (rb : RBoard) : Pos → Nat → RBoard
  | .res i, r => { rb with reserve := rb.reserve.set i r }
  | .fnd i, r => { rb with foundation := rb.foundation.set i r }
  | .tab i, r => { rb with tableau := rb.tableau.set i r }

/-- The module state of `freecell.py` at the reference level: the heap of list
objects, the board's slot pointers, and the history stacks, whose entries are
the per-slot snapshot-object pointers created by `save_board_state`. -/
structure HState where
  heap : Heap
  board : RBoard
  past : List RBoard
  current : Option RBoard
  future : List RBoard
deriving DecidableEq, Repr

/-- The card values currently in the slot at a position. -/
def hbStack (st : HState) (p : Pos) : List Card :=
  st.heap.get (rbGet st.board p)

/-- `Slot.put` with an iterable at the reference level.  On success the
appends land in place in the slot's current list object.  On failure the
appends made before the raise also land in place (`put_applied`), and `revert`
rebinds `self.stack` to the pristine copy taken by `freeze` — a fresh
object. -/
def hbPut (st : HState) (p : Pos) (cs : List Card) : HState × Bool :=
  let r := rbGet st.board p
  let s := st.heap.get r
  match put_loop (kindOf p) s cs with
  | some s2 => ({ st with heap := st.heap.setRef r s2 }, true)
  | none =>
    let h2 := st.heap.setRef r (put_applied (kindOf p) s cs)
    let a := h2.alloc s
    ({ st with heap := a.1, board := rbSet st.board p a.2 }, false)

/-- `Slot.pop_from(-n)` at the reference level: `self.stack = self[:-n]`
creates a new list object and rebinds the slot to it; the original object is
left untouched. -/
def hbPopFrom (st : HState) (p : Pos) (n : Nat) : HState :=
  let s := hbStack st p
  let a := st.heap.alloc (s.take (s.length - n))
  { st with heap := a.1, board := rbSet st.board p a.2 }

/-- `Slot.receive_from(slot, max_cards)` at the reference level: countdown
over candidate lengths; note that failed attempts still perform their partial
in-place appends and rebinds before the next attempt. -/
def hbReceive (dst src : Pos) : Nat → HState → HState × Bool
  | 0, st => (st, false)
  | n + 1, st =>
    let s := hbStack st src
    let att := hbPut st dst (trailing s (n + 1))
    if att.2 then (hbPopFrom att.1 src (n + 1), true)
    else hbReceive dst src n att.1

/-- The `receive_from` dispatch at the reference level (`ReserveSlot`
overrides `max_cards` to 1). -/
def hbDispatch (st : HState) (dst src : Pos) (m : Nat) : HState × Bool :=
  match kindOf dst with
  | .reserve => hbReceive dst src 1 st
  | _ => hbReceive dst src m st

/-- `count_empty` over slot pointers. -/
def hbCountEmpty (st : HState) (refs : List Nat) : Nat :=
  refs.countP (fun r => (st.heap.get r).isEmpty)

/-- Allocate fresh copies of the pointed-to objects (`slot.save()` for a panel
of slots), returning the new references in order. -/
def allocCopies (h : Heap) (refs : List Nat) : Heap × List Nat :=
  refs.foldl
    (fun acc r =>
      let a := acc.1.alloc (acc.1.get r)
      (a.1, acc.2 ++ [a.2]))
    (h, [])

/-- `save_board_state()` at the reference level: every slot's stack is copied
into a fresh object, the previous `history_current` (when set) is pushed onto
`history`, and `history_future` is cleared. -/
def hbSave (st : HState) : HState :=
  let ar := allocCopies st.heap st.board.reserve
  let af := allocCopies ar.1 st.board.foundation
  let atb := allocCopies af.1 st.board.tableau
  { st with
    heap := atb.1,
    past := (match st.current with | some c => c :: st.past | none => st.past),
    current := some { reserve := ar.2, foundation := af.2, tableau := atb.2 },
    future := [] }

/-- `step_back()` at the reference level: `Slot.load(from_stack)` executes
`self.stack = from_stack`, so the board slots alias the very objects of the
restored history entry. -/
def hbStepBack (st : HState) : HState × Bool :=
  match st.past with
  | [] => (st, false)
  | p :: rest =>
    ({ st with
        board := p,
        past := rest,
        future := (match st.current with | some c => c :: st.future | none => st.future),
        current := some p }, true)

/-- `push_to_foundation()` at the reference level: all 32
`fnd.receive_from(tab, max_cards=1)` attempts, tableau-outer,
foundation-inner. -/
def hbPush (st : HState) : HState :=
  (List.range 8).foldl
    (fun acc ti => (List.range 4).foldl
      (fun acc2 fi => (hbReceive (.fnd fi) (.tab ti) 1 acc2).1) acc) st

/-- A primary-click move at the reference level (`dst ≠ src` branch of
`click` followed by the main loop's `push_to_foundation()`). -/
def hbPrimaryMove (st : HState) (dst src : Pos) : HState :=
  let m := (1 + hbCountEmpty st st.board.tableau) * (1 + hbCountEmpty st st.board.reserve)
  let r := hbDispatch st dst src m
  let st2 := if r.2 then hbSave r.1 else r.1
  hbPush st2

/-- An undo keypress at the reference level: `step_back()`, then on success
the main loop's `push_to_foundation()`. -/
def hbUndoEvent (st : HState) : HState :=
  let r := hbStepBack st
  if r.2 then hbPush r.1 else r.1

/-- The card values of a history entry (or of the board's slot pointers). -/
def rbValues (h : Heap) (rb : RBoard) : Board :=
  { reserve := rb.reserve.map h.get,
    foundation := rb.foundation.map h.get,
    tableau := rb.tableau.map h.get }

/-- The values of every history entry (current, past and future) of a
reference-level state. -/
def hbAllBoards (st : HState) : List Board :=
  ((match st.current with | some c => [c] | none => []) ++ st.past ++ st.future).map
    (rbValues st.heap)

/-- Scenario-E start at the reference level: the `board0` deal, before the
`init()` save — objects 0-3 reserves, 4-7 foundations, 8-15 tableaus. -/
def hb0 : HState :=
  { heap := { mem := [[], [], [], [], [], [], [], [], [⟨7, 0⟩], [⟨6, 1⟩], [], [], [], [], [], []] },
    board := { reserve := [0, 1, 2, 3], foundation := [4, 5, 6, 7],
               tableau := [8, 9, 10, 11, 12, 13, 14, 15] },
    past := [], current := none, future := [] }

/-- After `init()`'s `save_board_state()`. -/
def hbInit : HState := hbSave hb0

/-- Move 1: 6 of hearts from tableau 1 onto the 7 of spades on tableau 0. -/
def hbA : HState := hbPrimaryMove hbInit (.tab 0) (.tab 1)

/-- Move 2: top of tableau 0 (6 of hearts) into reserve 0. -/
def hbB : HState := hbPrimaryMove hbA (.res 0) (.tab 0)

/-- Move 3: the remaining 7 of spades from tableau 0 onto empty tableau 2. -/
def hbC : HState := hbPrimaryMove hbB (.tab 2) (.tab 0)

/-- Two undos. -/
def hbD : HState := hbUndoEvent (hbUndoEvent hbC)

/-- New move instead of redo: 6 of hearts from tableau 0 into reserve 1. -/
def hbE : HState := hbPrimaryMove hbD (.res 1) (.tab 0)

/-- The values snapshotted after move 1 (creation-time contents of the move-1
history entry). -/
def board1 : Board :=
  { reserve := [[], [], [], []],
    foundation := [[], [], [], []],
    tableau := [[⟨7, 0⟩, ⟨6, 1⟩], [], [], [], [], [], [], []] }

/-- The contents the move-1 history entry actually has at the end of Scenario
E: its reserve-1 list object was mutated in place by the new move. -/
def board1corrupt : Board :=
  { reserve := [[], [⟨6, 1⟩], [], []],
    foundation := [[], [], [], []],
    tableau := [[⟨7, 0⟩, ⟨6, 1⟩], [], [], [], [], [], [], []] }

/-- The values snapshotted after move 2. -/
def board2 : Board :=
  { reserve := [[⟨6, 1⟩], [], [], []],
    foundation := [[], [], [], []],
    tableau := [[⟨7, 0⟩], [], [], [], [], [], [], []] }

/-- The values snapshotted after move 3. -/
def board3 : Board :=
  { reserve := [[⟨6, 1⟩], [], [], []],
    foundation := [[], [], [], []],
    tableau := [[], [], [⟨7, 0⟩], [], [], [], [], []] }

/-- The values snapshotted after the new move of Scenario E. -/
def board4 : Board :=
  { reserve := [[], [⟨6, 1⟩], [], []],
    foundation := [[], [], [], []],
    tableau := [[⟨7, 0⟩], [], [], [], [], [], [], []] }

/-- The explicit state after `init()` (`hbInit`), certified by `hbInit_val`. -/
def hbInitVal : HState :=
  { heap := { mem := [[], [], [], [], [], [], [], [], [(Card.mk 7 0)], [(Card.mk 6 1)], [], [], [], [], [], [], [], [], [], [], [], [], [], [], [(Card.mk 7 0)], [(Card.mk 6 1)], [], [], [], [], [], []] },
    board := { reserve := [0, 1, 2, 3], foundation := [4, 5, 6, 7], tableau := [8, 9, 10, 11, 12, 13, 14, 15] },
    past := [],
    current := some { reserve := [16, 17, 18, 19], foundation := [20, 21, 22, 23], tableau := [24, 25, 26, 27, 28, 29, 30, 31] },
    future := [] }

/-- The explicit state after move 1 (`hbA`), certified by `hbA_val`. -/
def hbAVal : HState :=
  { heap := { mem := [[], [], [], [], [], [], [], [], [(Card.mk 7 0), (Card.mk 6 1)], [(Card.mk 6 1)], [], [], [], [], [], [], [], [], [], [], [], [], [], [], [(Card.mk 7 0)], [(Card.mk 6 1)], [], [], [], [], [], [], [], [], [], [], [], [], [], [], [], [(Card.mk 7 0), (Card.mk 6 1)], [], [], [], [], [], [], [], [], [], [], [], [], [], [], [], [], [], [], [], [], [], [], [], [], [], [], [], [], [], [], [], [], [], [], [], [], [], [], []] },
    board := { reserve := [0, 1, 2, 3], foundation := [49, 50, 51, 52], tableau := [8, 56, 60, 64, 68, 72, 76, 80] },
    past := [{ reserve := [16, 17, 18, 19], foundation := [20, 21, 22, 23], tableau := [24, 25, 26, 27, 28, 29, 30, 31] }],
    current := some { reserve := [33, 34, 35, 36], foundation := [37, 38, 39, 40], tableau := [41, 42, 43, 44, 45, 46, 47, 48] },
    future := [] }

/-- The explicit state after move 2 (`hbB`), certified by `hbB_val`. -/
def hbBVal : HState :=
  { heap := { mem := [[(Card.mk 6 1)], [], [], [], [], [], [], [], [(Card.mk 7 0), (Card.mk 6 1)], [(Card.mk 6 1)], [], [], [], [], [], [], [], [], [], [], [], [], [], [], [(Card.mk 7 0)], [(Card.mk 6 1)], [], [], [], [], [], [], [], [], [], [], [], [], [], [], [], [(Card.mk 7 0), (Card.mk 6 1)], [], [], [], [], [], [], [], [], [], [], [], [], [], [], [], [], [], [], [], [], [], [], [], [], [], [], [], [], [], [], [], [], [], [], [], [], [], [], [], [(Card.mk 7 0)], [(Card.mk 6 1)], [], [], [], [], [], [], [], [(Card.mk 7 0)], [], [], [], [], [], [], [], [], [], [], [], [], [], [], [], [], [], [], [], [], [], [], [], [], [], [], [], [], [], [], [], [], [], [], [], [], [], [], []] },
    board := { reserve := [0, 1, 2, 3], foundation := [98, 99, 100, 101], tableau := [81, 105, 109, 113, 117, 121, 125, 129] },
    past := [{ reserve := [33, 34, 35, 36], foundation := [37, 38, 39, 40], tableau := [41, 42, 43, 44, 45, 46, 47, 48] }, { reserve := [16, 17, 18, 19], foundation := [20, 21, 22, 23], tableau := [24, 25, 26, 27, 28, 29, 30, 31] }],
    current := some { reserve := [82, 83, 84, 85], foundation := [86, 87, 88, 89], tableau := [90, 91, 92, 93, 94, 95, 96, 97] },
    future := [] }

/-- The explicit state after move 3 (`hbC`), certified by `hbC_val`. -/
def hbCVal : HState :=
  { heap := { mem := [[(Card.mk 6 1)], [], [], [], [], [], [], [], [(Card.mk 7 0), (Card.mk 6 1)], [(Card.mk 6 1)], [], [], [], [], [], [], [], [], [], [], [], [], [], [], [(Card.mk 7 0)], [(Card.mk 6 1)], [], [], [], [], [], [], [], [], [], [], [], [], [], [], [], [(Card.mk 7 0), (Card.mk 6 1)], [], [], [], [], [], [], [], [], [], [], [], [], [], [], [], [], [], [], [], [], [], [], [], [], [], [], [], [], [], [], [], [], [], [], [], [], [], [], [], [(Card.mk 7 0)], [(Card.mk 6 1)], [], [], [], [], [], [], [], [(Card.mk 7 0)], [], [], [], [], [], [], [], [], [], [], [], [], [], [], [], [], [], [], [(Card.mk 7 0)], [], [], [], [], [], [], [], [], [], [], [], [], [], [], [], [], [], [], [], [], [], [(Card.mk 6 1)], [], [], [], [], [], [], [], [], [], [(Card.mk 7 0)], [], [], [], [], [], [], [], [], [], [], [], [], [], [], [], [], [], [], [], [], [], [], [], [], [], [], [], [], [], [], [], [], [], [], [], [], []] },
    board := { reserve := [0, 1, 2, 3], foundation := [155, 156, 157, 158], tableau := [150, 154, 109, 162, 166, 170, 174, 178] },
    past := [{ reserve := [82, 83, 84, 85], foundation := [86, 87, 88, 89], tableau := [90, 91, 92, 93, 94, 95, 96, 97] }, { reserve := [33, 34, 35, 36], foundation := [37, 38, 39, 40], tableau := [41, 42, 43, 44, 45, 46, 47, 48] }, { reserve := [16, 17, 18, 19], foundation := [20, 21, 22, 23], tableau := [24, 25, 26, 27, 28, 29, 30, 31] }],
    current := some { reserve := [131, 132, 133, 134], foundation := [135, 136, 137, 138], tableau := [139, 140, 141, 142, 143, 144, 145, 146] },
    future := [] }

/-- The explicit state after the two undos (`hbD`), certified by `hbD_val`. -/
def hbDVal : HState :=
  { heap := { mem := [[(Card.mk 6 1)], [], [], [], [], [], [], [], [(Card.mk 7 0), (Card.mk 6 1)], [(Card.mk 6 1)], [], [], [], [], [], [], [], [], [], [], [], [], [], [], [(Card.mk 7 0)], [(Card.mk 6 1)], [], [], [], [], [], [], [], [], [], [], [], [], [], [], [], [(Card.mk 7 0), (Card.mk 6 1)], [], [], [], [], [], [], [], [], [], [], [], [], [], [], [], [], [], [], [], [], [], [], [], [], [], [], [], [], [], [], [], [], [], [], [], [], [], [], [], [(Card.mk 7 0)], [(Card.mk 6 1)], [], [], [], [], [], [], [], [(Card.mk 7 0)], [], [], [], [], [], [], [], [], [], [], [], [], [], [], [], [], [], [], [(Card.mk 7 0)], [], [], [], [], [], [], [], [], [], [], [], [], [], [], [], [], [], [], [], [], [], [(Card.mk 6 1)], [], [], [], [], [], [], [], [], [], [(Card.mk 7 0)], [], [], [], [], [], [], [], [], [], [], [], [], [], [], [], [], [], [], [], [], [], [], [], [], [], [], [], [], [], [], [], [], [], [], [], [], [], [], [], [], [], [], [], [], [], [], [], [], [], [], [], [], [], [], [], [], [], [], [], [], [], [], [], [], [], [], [], [], [], [], [], [], [], [], [], [], [], [], [], [], [], [], [], [], [], [], [], [], [], [], [], [], [], [], [], [], [], [], [], [], []] },
    board := { reserve := [33, 34, 35, 36], foundation := [211, 212, 213, 214], tableau := [41, 218, 222, 226, 230, 234, 238, 242] },
    past := [{ reserve := [16, 17, 18, 19], foundation := [20, 21, 22, 23], tableau := [24, 25, 26, 27, 28, 29, 30, 31] }],
    current := some { reserve := [33, 34, 35, 36], foundation := [37, 38, 39, 40], tableau := [41, 42, 43, 44, 45, 46, 47, 48] },
    future := [{ reserve := [82, 83, 84, 85], foundation := [86, 87, 88, 89], tableau := [90, 91, 92, 93, 94, 95, 96, 97] }, { reserve := [131, 132, 133, 134], foundation := [135, 136, 137, 138], tableau := [139, 140, 141, 142, 143, 144, 145, 146] }] }

/-- The explicit state after the new move of Scenario E (`hbE`), certified by `hbE_val`. -/
def hbEVal : HState :=
  { heap := { mem := [[(Card.mk 6 1)], [], [], [], [], [], [], [], [(Card.mk 7 0), (Card.mk 6 1)], [(Card.mk 6 1)], [], [], [], [], [], [], [], [], [], [], [], [], [], [], [(Card.mk 7 0)], [(Card.mk 6 1)], [], [], [], [], [], [], [], [], [(Card.mk 6 1)], [], [], [], [], [], [], [(Card.mk 7 0), (Card.mk 6 1)], [], [], [], [], [], [], [], [], [], [], [], [], [], [], [], [], [], [], [], [], [], [], [], [], [], [], [], [], [], [], [], [], [], [], [], [], [], [], [], [(Card.mk 7 0)], [(Card.mk 6 1)], [], [], [], [], [], [], [], [(Card.mk 7 0)], [], [], [], [], [], [], [], [], [], [], [], [], [], [], [], [], [], [], [(Card.mk 7 0)], [], [], [], [], [], [], [], [], [], [], [], [], [], [], [], [], [], [], [], [], [], [(Card.mk 6 1)], [], [], [], [], [], [], [], [], [], [(Card.mk 7 0)], [], [], [], [], [], [], [], [], [], [], [], [], [], [], [], [], [], [], [], [], [], [], [], [], [], [], [], [], [], [], [], [], [], [], [], [], [], [], [], [], [], [], [], [], [], [], [], [], [], [], [], [], [], [], [], [], [], [], [], [], [], [], [], [], [], [], [], [], [], [], [], [], [], [], [], [], [], [], [], [], [], [], [], [], [], [], [], [], [], [], [], [], [], [], [], [], [], [], [], [], [], [(Card.mk 7 0)], [], [(Card.mk 6 1)], [], [], [], [], [], [], [(Card.mk 7 0)], [], [], [], [], [], [], [], [], [], [], [], [], [], [], [], [], [], [], [], [], [], [], [], [], [], [], [], [], [], [], [], [], [], [], [], [], [], [], []] },
    board := { reserve := [33, 34, 35, 36], foundation := [260, 261, 262, 263], tableau := [243, 267, 271, 275, 279, 283, 287, 291] },
    past := [{ reserve := [33, 34, 35, 36], foundation := [37, 38, 39, 40], tableau := [41, 42, 43, 44, 45, 46, 47, 48] }, { reserve := [16, 17, 18, 19], foundation := [20, 21, 22, 23], tableau := [24, 25, 26, 27, 28, 29, 30, 31] }],
    current := some { reserve := [244, 245, 246, 247], foundation := [248, 249, 250, 251], tableau := [252, 253, 254, 255, 256, 257, 258, 259] },
    future := [] }

theorem put_single_append {k : SlotKind} {s : List Card} {c : Card} {s2 : List Card}
    (h : put_single k s c = some s2) : s2 = s ++ [c] := by
  cases k <;> simp only [put_single] at h
  · exact (Option.some.inj h).symm
  · split at h <;> split at h <;> simp_all
  · split at h <;> simp_all
  · split at h
    · exact (Option.some.inj h).symm
    · split at h <;> simp_all

theorem getLast?_singleton_card (t : Card) : [t].getLast? = some t := rfl

theorem put_single_canFollow {k : SlotKind} {s : List Card} {c : Card} {s2 : List Card}
    (h : put_single k s c = some s2) :
    s = [] ∨ ∃ t, s.getLast? = some t ∧ canFollow k t c = true := by
  cases hs : s with
  | nil => exact Or.inl rfl
  | cons a as =>
    right
    subst hs
    obtain ⟨t, hL⟩ := Option.isSome_iff_exists.mp
      (List.getLast?_isSome.mpr (by simp) : (a :: as).getLast?.isSome = true)
    refine ⟨t, hL, ?_⟩
    cases k <;> simp only [put_single] at h
    · rfl
    · rw [hL] at h
      dsimp only at h
      split at h
      · simp only [canFollow, put_single, getLast?_singleton_card]
        rw [if_pos (by assumption)]
        rfl
      · exact absurd h (by simp)
    · simp only [List.isEmpty_cons] at h
      exact absurd h (by simp)
    · rw [hL] at h
      dsimp only at h
      split at h
      · simp only [canFollow, put_single, getLast?_singleton_card]
        rw [if_pos (by assumption)]
        rfl
      · exact absurd h (by simp)

theorem pairwiseOk_snoc (k : SlotKind) :
    ∀ (s : List Card) (c : Card),
      pairwiseOk k s = true →
      (s = [] ∨ ∃ t, s.getLast? = some t ∧ canFollow k t c = true) →
      pairwiseOk k (s ++ [c]) = true
  | [], _, _, _ => rfl
  | [a], c, _, h => by
    rcases h with h | ⟨t, ht, hc⟩
    · exact absurd h (by simp)
    · simp only [List.getLast?_singleton, Option.some.injEq] at ht
      subst ht
      simp [pairwiseOk, hc]
  | a :: b :: rest, c, hp, h => by
    rcases h with h | ⟨t, ht, hc⟩
    · exact absurd h (by simp)
    · simp only [pairwiseOk, Bool.and_eq_true] at hp
      have hrec :
          pairwiseOk k ((b :: rest) ++ [c]) = true := by
        refine pairwiseOk_snoc k (b :: rest) c hp.2 (Or.inr ⟨t, ?_, hc⟩)
        rw [← ht]
        exact List.getLast?_cons_cons.symm
      simp only [List.cons_append, pairwiseOk, Bool.and_eq_true]
      exact ⟨hp.1, by simpa using hrec⟩

theorem put_loop_props (k : SlotKind) :
    ∀ (cs s s2 : List Card),
      put_loop k s cs = some s2 →
      s2 = s ++ cs ∧ (pairwiseOk k s = true → pairwiseOk k s2 = true)
  | [], s, s2, h => by
    simp only [put_loop] at h
    exact ⟨by simp [← Option.some.inj h], fun hp => (Option.some.inj h) ▸ hp⟩
  | c :: cs, s, s2, h => by
    simp only [put_loop] at h
    cases h1 : put_single k s c with
    | none => rw [h1] at h; exact absurd h (by simp)
    | some s1 =>
      rw [h1] at h
      have hs1 : s1 = s ++ [c] := put_single_append h1
      have ih := put_loop_props k cs s1 s2 h
      constructor
      · rw [ih.1, hs1]; simp
      · intro hp
        refine ih.2 ?_
        rw [hs1]
        exact pairwiseOk_snoc k s c hp (put_single_canFollow h1)

theorem put_loop_chain (k : SlotKind) :
    ∀ (cs s s2 : List Card) (t : Card), put_loop k s cs = some s2 →
      s.getLast? = some t → pairwiseOk k (t :: cs) = true
  | [], _, _, _, _, _ => rfl
  | c :: cs, s, s2, t, h, hL => by
    simp only [put_loop] at h
    cases h1 : put_single k s c with
    | none => rw [h1] at h; exact absurd h (by simp)
    | some s1 =>
      rw [h1] at h
      have hcf : canFollow k t c = true := by
        rcases put_single_canFollow h1 with hnil | ⟨t2, hL2, hcf2⟩
        · rw [hnil] at hL
          exact absurd hL (by simp)
        · rw [hL2] at hL
          exact (Option.some.inj hL) ▸ hcf2
      have hs1 : s1 = s ++ [c] := put_single_append h1
      have hL1 : s1.getLast? = some c := by
        rw [hs1]
        exact List.getLast?_concat s
      have ih := put_loop_chain k cs s1 s2 c h hL1
      simp only [pairwiseOk, Bool.and_eq_true]
      exact ⟨hcf, ih⟩

theorem put_loop_appended (k : SlotKind) (cs s s2 : List Card)
    (h : put_loop k s cs = some s2) : pairwiseOk k (appended_pairs s cs) = true := by
  cases hL : s.getLast? with
  | some t =>
    simp only [appended_pairs, hL]
    exact put_loop_chain k cs s s2 t h hL
  | none =>
    have hs : s = [] := by
      cases s with
      | nil => rfl
      | cons a as => simp at hL
    subst hs
    show pairwiseOk k (appended_pairs [] cs) = true
    cases cs with
    | nil => rfl
    | cons c cs2 =>
      simp only [put_loop] at h
      cases h1 : put_single k [] c with
      | none => rw [h1] at h; exact absurd h (by simp)
      | some s1 =>
        rw [h1] at h
        have hs1 : s1 = [c] := by simpa using put_single_append h1
        subst hs1
        exact put_loop_chain k cs2 [c] s2 c h rfl

theorem receive_from_none (k : SlotKind) (dst src : List Card) :
    ∀ m : Nat, (∀ j, 1 ≤ j → j ≤ m → try_len k dst src j = false) →
      receive_from k dst src m = (dst, src, false)
  | 0, _ => rfl
  | m + 1, hall => by
    have h1 : try_len k dst src (m + 1) = false :=
      hall (m + 1) (Nat.succ_le_succ (Nat.zero_le m)) (Nat.le_refl _)
    simp only [receive_from]
    cases hp : put_loop k dst (trailing src (m + 1)) with
    | some d2 =>
      have : try_len k dst src (m + 1) = true := by
        simp [try_len, hp]
      simp [this] at h1
    | none =>
      exact receive_from_none k dst src m fun j hj1 hj2 => hall j hj1 (Nat.le_succ_of_le hj2)

theorem receive_from_first (k : SlotKind) (dst src : List Card) :
    ∀ (m k0 : Nat), 1 ≤ k0 → k0 ≤ m → try_len k dst src k0 = true →
      (∀ j, k0 < j → j ≤ m → try_len k dst src j = false) →
      receive_from k dst src m =
        (dst ++ trailing src k0, src.take (src.length - k0), true)
  | 0, k0, h1, h2, _, _ => absurd (Nat.le_trans h1 h2) (by simp)
  | m + 1, k0, h1, h2, htry, hall => by
    rcases Nat.lt_or_ge k0 (m + 1) with hlt | hge
    · have hfail : try_len k dst src (m + 1) = false :=
        hall (m + 1) hlt (Nat.le_refl _)
      simp only [receive_from]
      cases hp : put_loop k dst (trailing src (m + 1)) with
      | some d2 =>
        have : try_len k dst src (m + 1) = true := by simp [try_len, hp]
        simp [this] at hfail
      | none =>
        exact receive_from_first k dst src m k0 h1 (Nat.lt_succ_iff.mp hlt) htry
          fun j hj1 hj2 => hall j hj1 (Nat.le_succ_of_le hj2)
    · have hk0 : k0 = m + 1 := Nat.le_antisymm h2 hge
      subst hk0
      simp only [receive_from]
      cases hp : put_loop k dst (trailing src (m + 1)) with
      | some d2 =>
        have := (put_loop_props k (trailing src (m + 1)) dst d2 hp).1
        rw [this]
      | none =>
        rw [try_len, hp] at htry
        simp at htry

theorem put_loop_reserve_cases :
    ∀ (l dst d2 : List Card), put_loop .reserve dst l = some d2 →
      (l = [] ∧ d2 = dst) ∨ (dst = [] ∧ ∃ c, l = [c] ∧ d2 = [c])
  | [], dst, d2, h => Or.inl ⟨rfl, (Option.some.inj h).symm⟩
  | c :: ls, dst, d2, h => by
    right
    simp only [put_loop] at h
    cases h1 : put_single .reserve dst c with
    | none => rw [h1] at h; exact absurd h (by simp)
    | some s1 =>
      rw [h1] at h
      have hdst : dst = [] := by
        by_contra hne
        have : dst.isEmpty = false := by
          cases dst with
          | nil => exact absurd rfl hne
          | cons a as => rfl
        simp only [put_single, this] at h1
        exact absurd h1 (by simp)
      subst hdst
      have hs1 : s1 = [c] := by simpa using put_single_append h1
      subst hs1
      refine ⟨rfl, c, ?_⟩
      cases ls with
      | nil =>
        simp only [put_loop] at h
        exact ⟨rfl, (Option.some.inj h).symm⟩
      | cons c2 ls2 =>
        simp only [put_loop, put_single, List.isEmpty_cons] at h
        exact absurd h (by simp)

theorem trailing_nil_of_eq_nil {src : List Card} {n : Nat}
    (h : trailing src (n + 1) = []) : src = [] := by
  have hlen := congrArg List.length h
  simp only [trailing, List.length_drop, List.length_nil] at hlen
  have : src.length = 0 := by omega
  exact List.length_eq_zero.mp this

theorem trailing_singleton {src : List Card} {m : Nat} {c : Card}
    (h : trailing src (m + 2) = [c]) : src = [c] := by
  have hlen := congrArg List.length h
  simp only [trailing, List.length_drop, List.length_singleton] at hlen
  have hz : src.length - (m + 2) = 0 := by omega
  rw [trailing, hz, List.drop_zero] at h
  exact h

theorem receive_dispatch_reserve_eq (dst src : List Card) :
    ∀ m : Nat, receive_from .reserve dst src (m + 1) = receive_from .reserve dst src 1
  | 0 => rfl
  | m + 1 => by
    have ih := receive_dispatch_reserve_eq dst src m
    simp only [receive_from]
    cases hp : put_loop .reserve dst (trailing src (m + 2)) with
    | some d2 =>
      rcases put_loop_reserve_cases _ dst d2 hp with ⟨hl, hd⟩ | ⟨hdst, c, hl, hd⟩
      · have hsrc : src = [] := trailing_nil_of_eq_nil hl
        subst hsrc hd
        simp [trailing, put_loop]
      · have hsrc : src = [c] := trailing_singleton hl
        subst hdst hsrc hd
        simp [trailing, put_loop, put_single]
    | none =>
      simpa only [receive_from] using ih

theorem put_loop_reserve_len {cs s s2 : List Card} (hs : s.length ≤ 1)
    (h : put_loop .reserve s cs = some s2) : s2.length ≤ 1 := by
  rcases put_loop_reserve_cases cs s s2 h with ⟨_, hd⟩ | ⟨_, c, _, hd⟩
  · exact hd ▸ hs
  · simp [hd]

theorem put_iter_reserve_len (s cs : List Card) (hs : s.length ≤ 1) :
    ((put_iter .reserve s cs).1).length ≤ 1 := by
  rw [put_iter]
  cases hp : put_loop .reserve s cs with
  | some s2 => exact put_loop_reserve_len hs hp
  | none => exact hs

theorem receive_from_reserve_len (dst src : List Card) :
    ∀ m : Nat, dst.length ≤ 1 → ((receive_from .reserve dst src m).1).length ≤ 1
  | 0, hd => hd
  | m + 1, hd => by
    simp only [receive_from]
    cases hp : put_loop .reserve dst (trailing src (m + 1)) with
    | some d2 => exact put_loop_reserve_len hd hp
    | none => exact receive_from_reserve_len dst src m hd

theorem fRun_length (u : Nat) : ∀ n : Nat, (fRun u n).length = n
  | 0 => rfl
  | n + 1 => by simp [fRun, fRun_length u n]

theorem fRun_getLast (u n : Nat) :
    (fRun u (n + 1)).getLast? = some ⟨(n : Int) + 1, u⟩ := by
  simp [fRun, List.getLast?_concat]

theorem put_single_foundation_fRun {s : List Card} {c : Card} {s2 : List Card}
    (hf : isFRun s) (h : put_single .foundation s c = some s2) : isFRun s2 := by
  obtain ⟨u, n, rfl⟩ := hf
  cases n with
  | zero =>
    simp only [put_single, fRun, List.getLast?_nil] at h
    split at h
    · have hc : c = ⟨1, c.suit⟩ := by
        rename_i hcond
        cases c
        simp_all
      refine ⟨c.suit, 1, ?_⟩
      rw [← Option.some.inj h, hc]
      simp [fRun]
    · exact absurd h (by simp)
  | succ n =>
    simp only [put_single, fRun_getLast u n] at h
    split at h
    · rename_i hcond
      have hc : c = ⟨(n : Int) + 1 + 1, u⟩ := by
        cases c
        simp_all
      refine ⟨u, n + 2, ?_⟩
      rw [← Option.some.inj h, hc]
      have hcast : ((n + 1 : Nat) : Int) + 1 = (n : Int) + 1 + 1 := by push_cast; ring
      simp [fRun, hcast]
    · exact absurd h (by simp)

theorem put_loop_foundation_fRun :
    ∀ {cs s s2 : List Card}, isFRun s →
      put_loop .foundation s cs = some s2 → isFRun s2 := by
  intro cs
  induction cs with
  | nil =>
    intro s s2 hf h
    simp only [put_loop] at h
    exact (Option.some.inj h) ▸ hf
  | cons c cs ih =>
    intro s s2 hf h
    simp only [put_loop] at h
    cases h1 : put_single .foundation s c with
    | none => rw [h1] at h; exact absurd h (by simp)
    | some s1 =>
      rw [h1] at h
      exact ih (put_single_foundation_fRun hf h1) h

theorem set_getD_self (l : List (List Card)) : ∀ i : Nat, l.set i (l.getD i []) = l := by
  induction l with
  | nil => intro i; rfl
  | cons a as ih =>
    intro i
    cases i with
    | zero => rfl
    | succ j => simpa [List.set, List.getD] using ih j

theorem boardSet_get_self (b : Board) (p : Pos) : boardSet b p (boardGet b p) = b := by
  cases b
  cases p <;> simp only [boardSet, boardGet, set_getD_self]

theorem receive_from_empty_src (k : SlotKind) (d : List Card) :
    ∀ m : Nat, 1 ≤ m → receive_from k d [] m = (d, [], true)
  | 0, h => absurd h (by simp)
  | m + 1, _ => by
    simp [receive_from, trailing, put_loop]

theorem receive_dispatch_empty_src (k : SlotKind) (d : List Card) (m : Nat) (hm : 1 ≤ m) :
    receive_dispatch k d [] m = (d, [], true) := by
  cases k <;> simp only [receive_dispatch]
  · exact receive_from_empty_src _ d m hm
  · exact receive_from_empty_src _ d m hm
  · exact receive_from_empty_src _ d 1 (Nat.le_refl 1)
  · exact receive_from_empty_src _ d m hm

/-- Claim C1, as stated, is false: `put` of an iterable can succeed on a
container whose pre-existing stack already violates the kind's pairwise
placement predicate (the initial deal creates exactly such tableau columns by
appending to `slot.stack` directly), and then the resulting sequence does not
satisfy the predicate for every adjacent pair even though the run was appended
and no error was raised.  Concrete input: tableau stack `[spade ace, heart 5]`
receiving the run `[spade 4]`. -/
theorem put_run_claim_counterexample :
    ¬ (((put_iter .tableau [⟨1, 0⟩, ⟨5, 1⟩] [⟨4, 0⟩]).2 = true
          ∧ (put_iter .tableau [⟨1, 0⟩, ⟨5, 1⟩] [⟨4, 0⟩]).1 = [⟨1, 0⟩, ⟨5, 1⟩] ++ [⟨4, 0⟩]
          ∧ pairwiseOk .tableau ((put_iter .tableau [⟨1, 0⟩, ⟨5, 1⟩] [⟨4, 0⟩]).1) = true)
        ∨ ((put_iter .tableau [⟨1, 0⟩, ⟨5, 1⟩] [⟨4, 0⟩]).2 = false
          ∧ (put_iter .tableau [⟨1, 0⟩, ⟨5, 1⟩] [⟨4, 0⟩]).1 = [⟨1, 0⟩, ⟨5, 1⟩])) := by
  decide

/-- Claim C1 (amended): `put` of an iterable is atomic all-or-nothing — on
success every card of the run is appended in order and the placement predicate
holds, unconditionally, for every adjacent pair involving an appended card
(the junction with the previous top card and every pair inside the run), so in
particular a pre-call stack that satisfied the pairwise predicate still
satisfies it afterwards; on failure the stack is exactly its pre-call value
and the error propagates. -/
theorem put_run_atomic (k : SlotKind) (s cs : List Card) :
    ((put_iter k s cs).2 = true →
        (put_iter k s cs).1 = s ++ cs
          ∧ pairwiseOk k (appended_pairs s cs) = true
          ∧ (pairwiseOk k s = true → pairwiseOk k ((put_iter k s cs).1) = true))
    ∧ ((put_iter k s cs).2 = false → (put_iter k s cs).1 = s) := by
  rw [put_iter]
  cases hp : put_loop k s cs with
  | some s2 =>
    have hprops := put_loop_props k cs s s2 hp
    have happ := put_loop_appended k cs s s2 hp
    exact ⟨fun _ => ⟨hprops.1, happ, hprops.2⟩, by simp⟩
  | none => exact ⟨by simp, fun _ => rfl⟩

theorem put_run_atomic_witness :
    ((put_iter .tableau [⟨1, 0⟩, ⟨5, 1⟩] [⟨4, 0⟩]).1 = [⟨1, 0⟩, ⟨5, 1⟩] ++ [⟨4, 0⟩]
        ∧ pairwiseOk .tableau (appended_pairs [⟨1, 0⟩, ⟨5, 1⟩] [⟨4, 0⟩]) = true)
      ∧ (put_iter .reserve [⟨5, 0⟩] [⟨4, 1⟩]).1 = [⟨5, 0⟩] := by
  refine ⟨⟨?_, ?_⟩, ?_⟩
  · exact ((put_run_atomic .tableau [⟨1, 0⟩, ⟨5, 1⟩] [⟨4, 0⟩]).1 (by decide)).1
  · exact ((put_run_atomic .tableau [⟨1, 0⟩, ⟨5, 1⟩] [⟨4, 0⟩]).1 (by decide)).2.1
  · exact (put_run_atomic .reserve [⟨5, 0⟩] [⟨4, 1⟩]).2 (by decide)

/-- Claim C2: `receive_from` tries run lengths from `max_cards` down to 1 and
the first (i.e. longest) length whose trailing slice can be legally appended
wins — exactly those cards are removed from the source and appended to the
destination, with success returned; when every length fails, failure is
returned and neither stack changes.  The last conjunct settles the dispatch:
`ReserveSlot.receive_from` forces `max_cards=1` but is observationally equal
to the inherited method for any `max_cards ≥ 1`, and every other slot class
inherits the method unchanged. -/
theorem receive_from_longest (k : SlotKind) (dst src : List Card) (m : Nat) :
    ((∀ j, 1 ≤ j → j ≤ m → try_len k dst src j = false) →
        receive_from k dst src m = (dst, src, false))
    ∧ (∀ k0, 1 ≤ k0 → k0 ≤ m → try_len k dst src k0 = true →
        (∀ j, k0 < j → j ≤ m → try_len k dst src j = false) →
        receive_from k dst src m =
          (dst ++ trailing src k0, src.take (src.length - k0), true))
    ∧ (∀ mm : Nat, 1 ≤ mm → receive_dispatch k dst src mm = receive_from k dst src mm) := by
  refine ⟨receive_from_none k dst src m,
    fun k0 h1 h2 h3 h4 => receive_from_first k dst src m k0 h1 h2 h3 h4, ?_⟩
  intro mm hmm
  obtain ⟨mm2, rfl⟩ : ∃ t, mm = t + 1 := ⟨mm - 1, by omega⟩
  cases k
  · rfl
  · rfl
  · exact (receive_dispatch_reserve_eq dst src mm2).symm
  · rfl

theorem receive_from_longest_witness :
    receive_from .tableau [⟨7, 0⟩] [⟨9, 1⟩, ⟨6, 1⟩, ⟨5, 0⟩] 3
      = ([⟨7, 0⟩] ++ trailing [⟨9, 1⟩, ⟨6, 1⟩, ⟨5, 0⟩] 2,
          ([⟨9, 1⟩, ⟨6, 1⟩, ⟨5, 0⟩] : List Card).take
            (([⟨9, 1⟩, ⟨6, 1⟩, ⟨5, 0⟩] : List Card).length - 2),
          true) :=
  (receive_from_longest .tableau [⟨7, 0⟩] [⟨9, 1⟩, ⟨6, 1⟩, ⟨5, 0⟩] 3).2.1 2
    (by decide) (by decide) (by decide)
    (fun j hj1 hj2 => by
      have hj : j = 3 := by omega
      subst hj
      decide)

/-- Claim C3, as stated, is false: after a confirmed move the controller does
attempt the foundation promotions, but `save_board_state()` runs inside
`click` while `push_to_foundation()` runs afterwards in the main loop, so the
snapshot recorded for the move does not contain the auto-promoted cards — here
the Ace of spades is promoted onto the first foundation on the board, yet no
history entry (past, current or future) contains it. -/
theorem autopromote_counterexample :
    (primaryMoveEvent stCE (.tab 2) (.tab 1)).board.foundation = [[⟨1, 0⟩], [], [], []]
      ∧ (primaryMoveEvent stCE (.tab 2) (.tab 1)).current.foundation = [[], [], [], []]
      ∧ ∀ b ∈ (primaryMoveEvent stCE (.tab 2) (.tab 1)).current ::
            ((primaryMoveEvent stCE (.tab 2) (.tab 1)).past
              ++ (primaryMoveEvent stCE (.tab 2) (.tab 1)).future),
          (⟨1, 0⟩ : Card) ∉ b.foundation.getD 0 [] := by
  decide

/-- Claim C3 (amended): after every confirmed move the controller attempts the
single-card `receive_from(foundation, tableau, max_cards=1)` for every tableau
and foundation container (`push_to_foundation`), and no separate snapshot is
created for the promotions — but the move's history snapshot (`current`) is
recorded before promotion, so the auto-promoted cards are not part of it: the
whole event performs exactly one history update, whose snapshot is the
pre-promotion board. -/
theorem autopromote_after_snapshot (st : GameState) (dst src : Pos)
    (h : (applyReceive st.board dst src).2 = true) :
    primaryMoveEvent st dst src =
      { board := push_to_foundation (applyReceive st.board dst src).1,
        past := st.current :: st.past,
        current := (applyReceive st.board dst src).1,
        future := [] } := by
  simp only [primaryMoveEvent, h, if_true, save_board_state]

theorem autopromote_after_snapshot_witness :
    primaryMoveEvent stCE (.tab 2) (.tab 1) =
      { board := push_to_foundation (applyReceive stCE.board (.tab 2) (.tab 1)).1,
        past := stCE.current :: stCE.past,
        current := (applyReceive stCE.board (.tab 2) (.tab 1)).1,
        future := [] } :=
  autopromote_after_snapshot stCE (.tab 2) (.tab 1) (by decide)

/-- Claim C4 is right and the code is wrong: history snapshots are mutated
after creation.  `Slot.save` copies, but `Slot.load` aliases the snapshot's
list object into the slot, and a later `put_single` appends to that object in
place.  In the trace: snapshot object 1 is created by the `init()` save with
contents `[spade 7]`; after one move, one save and one undo, the slot aliases
object 1, and the next move's put mutates it to `[spade 7, diamond 6]` while
it is still the `history_current` entry.  A further save and undo then fails
to restore the pre-move board: undo leaves the board showing the post-move
stack. -/
theorem snapshot_mutated :
    hg1.current = some 1
      ∧ hg1.heap.get 1 = [⟨7, 0⟩]
      ∧ hg5.current = some 1
      ∧ hg5.heap.get 1 = [⟨7, 0⟩, ⟨6, 3⟩]
      ∧ (hstep_back (hsave hg5)).heap.get (hstep_back (hsave hg5)).slotRef
          = [⟨7, 0⟩, ⟨6, 3⟩] := by
  decide

/-- Claim C5: for a board state reached right after a confirmed move, an undo
event followed by a redo event restores exactly that board (identical
container contents in identical order). -/
theorem undo_redo_roundtrip (st : GameState) (dst src : Pos)
    (h : (applyReceive st.board dst src).2 = true) :
    (redoEvent (undoEvent (primaryMoveEvent st dst src))).board =
      (primaryMoveEvent st dst src).board := by
  simp only [primaryMoveEvent, h, if_true, save_board_state]
  simp [undoEvent, redoEvent, step_back, step_forward]

theorem undo_redo_roundtrip_witness :
    (redoEvent (undoEvent (primaryMoveEvent st0 (.tab 0) (.tab 1)))).board =
      (primaryMoveEvent st0 (.tab 0) (.tab 1)).board :=
  undo_redo_roundtrip st0 (.tab 0) (.tab 1) (by decide)

set_option maxRecDepth 8000 in
theorem hbInit_val : hbInit = hbInitVal := by decide

set_option maxRecDepth 8000 in
theorem hbA_val : hbA = hbAVal := by
  show hbPrimaryMove hbInit (.tab 0) (.tab 1) = hbAVal
  rw [hbInit_val]
  decide

set_option maxRecDepth 8000 in
theorem hbB_val : hbB = hbBVal := by
  show hbPrimaryMove hbA (.res 0) (.tab 0) = hbBVal
  rw [hbA_val]
  decide

set_option maxRecDepth 8000 in
theorem hbC_val : hbC = hbCVal := by
  show hbPrimaryMove hbB (.tab 2) (.tab 0) = hbCVal
  rw [hbB_val]
  decide

set_option maxRecDepth 8000 in
theorem hbD_val : hbD = hbDVal := by
  show hbUndoEvent (hbUndoEvent hbC) = hbDVal
  rw [hbC_val]
  decide

set_option maxRecDepth 8000 in
theorem hbE_val : hbE = hbEVal := by
  show hbPrimaryMove hbD (.res 1) (.tab 0) = hbEVal
  rw [hbD_val]
  decide

set_option maxRecDepth 8000 in
/-- Claim C6, as stated, is false about the past stack's contents.  In the
reference-level model (which keeps list-object identity), the Scenario-E
sequence — 3 confirmed moves, 2 undos, 1 new confirmed move — leaves a past
stack that does not hold the move-1 snapshot as created: after the undos the
slots alias the move-1 entry's objects (`Slot.load`), and the new move's put
appends its card in place into that entry's reserve-1 list before
`save_board_state` pushes it.  The entry was created holding `board1` (second
conjunct) but ends up holding `board1corrupt`, whose reserve 1 shows the new
move's 6 of hearts. -/
theorem scenarioE_past_counterexample :
    hbE.past.map (rbValues hbE.heap) ≠ [board1, board0]
      ∧ hbA.current.map (rbValues hbA.heap) = some board1
      ∧ hbE.past.map (rbValues hbE.heap) = [board1corrupt, board0] := by
  rw [hbE_val, hbA_val]
  decide

set_option maxRecDepth 8000 in
/-- Claim C6 (amended): saving a confirmed move always clears the redo stack
(first two conjuncts, reference-level and value-level `save_board_state`), and
in Scenario E the future stack ends empty, the past stack has exactly two
entries — the initial snapshot, intact, and the entry created at move 1 —
with the new move as the current snapshot, and the two previously redoable
snapshots' states appear nowhere in the history any more; however, due to the
snapshot-aliasing bug, the move-1 entry has been corrupted in place by the
new move (its reserve-1 list now holds the moved card). -/
theorem redo_invalidation :
    (∀ st : HState, (hbSave st).future = [])
      ∧ (∀ st : GameState, (save_board_state st).future = [])
      ∧ hbE.future = []
      ∧ hbE.past.length = 2
      ∧ hbE.past.map (rbValues hbE.heap) = [board1corrupt, board0]
      ∧ hbE.current.map (rbValues hbE.heap) = some board4
      ∧ board2 ∉ hbAllBoards hbE
      ∧ board3 ∉ hbAllBoards hbE := by
  refine ⟨fun st => rfl, fun st => rfl, ?_⟩
  rw [hbE_val]
  decide

/-- Claim C7: an empty foundation accepts exactly the rank-1 cards and rejects
everything else unchanged; a non-empty foundation accepts exactly the card of
the same suit and one rank higher than its top; consequently any stack built
from empty by successful puts is `Ace, 2, ..., n` of a single suit. -/
theorem foundation_rules :
    (∀ c : Card, put_single .foundation [] c = if c.number = 1 then some [c] else none)
    ∧ (∀ (s : List Card) (t c : Card), s.getLast? = some t →
        put_single .foundation s c =
          if c.suit = t.suit ∧ c.number = t.number + 1 then some (s ++ [c]) else none)
    ∧ (∀ cs s : List Card, put_loop .foundation [] cs = some s →
        ∃ u : Nat, s = fRun u s.length) := by
  refine ⟨fun c => rfl, fun s t c hL => ?_, fun cs s h => ?_⟩
  · simp only [put_single, hL]
  · obtain ⟨u, n, rfl⟩ := put_loop_foundation_fRun ⟨0, 0, rfl⟩ h
    exact ⟨u, by rw [fRun_length]⟩

theorem foundation_rules_witness :
    put_single .foundation [] (⟨2, 1⟩ : Card) = none
      ∧ put_single .foundation [⟨1, 1⟩] (⟨2, 1⟩ : Card) = some ([⟨1, 1⟩] ++ [⟨2, 1⟩])
      ∧ (∃ u : Nat,
          ([⟨1, 1⟩, ⟨2, 1⟩] : List Card) = fRun u ([⟨1, 1⟩, ⟨2, 1⟩] : List Card).length) := by
  refine ⟨?_, ?_, ?_⟩
  · have h := foundation_rules.1 (⟨2, 1⟩ : Card)
    simpa using h
  · have h := foundation_rules.2.1 [⟨1, 1⟩] ⟨1, 1⟩ ⟨2, 1⟩ rfl
    simpa using h
  · exact foundation_rules.2.2 [⟨1, 1⟩, ⟨2, 1⟩] [⟨1, 1⟩, ⟨2, 1⟩] (by decide)

/-- Claim C8: a reserve never holds more than one card — a put into a
non-empty reserve fails leaving the stack untouched, runs and receives
preserve the one-card bound whatever the fuel, and `ReserveSlot.receive_from`
discards the caller's `max_cards` in favour of 1. -/
theorem reserve_capacity :
    (∀ (s : List Card) (c : Card), s ≠ [] → put_card .reserve s c = (s, false))
    ∧ (∀ s cs : List Card, s.length ≤ 1 → ((put_iter .reserve s cs).1).length ≤ 1)
    ∧ (∀ (dst src : List Card) (m : Nat), dst.length ≤ 1 →
        ((receive_from .reserve dst src m).1).length ≤ 1)
    ∧ (∀ (dst src : List Card) (m : Nat),
        receive_dispatch .reserve dst src m = receive_from .reserve dst src 1) := by
  refine ⟨fun s c hs => ?_, put_iter_reserve_len,
    fun dst src m => receive_from_reserve_len dst src m, fun dst src m => rfl⟩
  have hne : s.isEmpty = false := by
    cases s with
    | nil => exact absurd rfl hs
    | cons a as => rfl
  simp [put_card, put_single, hne]

theorem reserve_capacity_witness :
    put_card .reserve [⟨3, 2⟩] (⟨9, 1⟩ : Card) = ([⟨3, 2⟩], false)
      ∧ ((put_iter .reserve [⟨3, 2⟩] [⟨9, 1⟩, ⟨8, 0⟩]).1).length ≤ 1
      ∧ ((receive_from .reserve [] [⟨9, 1⟩] 5).1).length ≤ 1
      ∧ receive_dispatch .reserve [] [⟨9, 1⟩] 5 = receive_from .reserve [] [⟨9, 1⟩] 1 :=
  ⟨reserve_capacity.1 [⟨3, 2⟩] ⟨9, 1⟩ (by decide),
    reserve_capacity.2.1 [⟨3, 2⟩] [⟨9, 1⟩, ⟨8, 0⟩] (by decide),
    reserve_capacity.2.2.1 [] [⟨9, 1⟩] 5 (by decide),
    reserve_capacity.2.2.2 [] [⟨9, 1⟩] 5⟩

/-- Claim C9: an empty tableau accepts any card; a non-empty tableau accepts a
card exactly when its rank is one less than the top card's and its suit-index
parity differs from the top card's (otherwise the put fails and the stack is
unchanged). -/
theorem tableau_rules :
    (∀ c : Card, put_single .tableau [] c = some [c])
    ∧ (∀ (s : List Card) (t c : Card), s.getLast? = some t →
        (put_single .tableau s c = some (s ++ [c])
            ↔ (c.number = t.number - 1 ∧ c.suit % 2 ≠ t.suit % 2))
          ∧ (put_single .tableau s c = none
            ↔ ¬(c.number = t.number - 1 ∧ c.suit % 2 ≠ t.suit % 2))) := by
  refine ⟨fun c => rfl, fun s t c hL => ?_⟩
  simp only [put_single, hL]
  by_cases hc : c.number = t.number - 1 ∧ c.suit % 2 ≠ t.suit % 2
  · rw [if_pos hc]
    exact ⟨⟨fun _ => hc, fun _ => rfl⟩, ⟨fun h => absurd h (by simp), fun h => absurd hc h⟩⟩
  · rw [if_neg hc]
    refine ⟨⟨fun h => absurd h.symm (by simp), fun h => absurd h hc⟩, ⟨fun _ => hc, fun _ => rfl⟩⟩

theorem tableau_rules_witness :
    put_single .tableau [⟨7, 0⟩] (⟨6, 1⟩ : Card) = some ([⟨7, 0⟩] ++ [⟨6, 1⟩])
      ∧ put_single .tableau [⟨7, 0⟩] (⟨6, 2⟩ : Card) = none :=
  ⟨((tableau_rules.2 [⟨7, 0⟩] ⟨7, 0⟩ ⟨6, 1⟩ rfl).1).mpr (by decide),
    ((tableau_rules.2 [⟨7, 0⟩] ⟨7, 0⟩ ⟨6, 2⟩ rfl).2).mpr (by decide)⟩

/-- Claim C10: when the source container is empty, `receive_from` succeeds at
the very first candidate length (`slot[-k:]` is the empty list and an empty
`put` cannot fail), returning success without moving a card; through the
primary-click path this counts as a changed board, so a fresh history entry is
recorded (past grows by one, future is cleared) whose snapshot equals the
unchanged board. -/
theorem empty_source_receive (st : GameState) (dst src : Pos) (k : SlotKind)
    (d : List Card) (m : Nat) (hm : 1 ≤ m) (h : boardGet st.board src = []) :
    receive_from k d [] m = (d, [], true)
      ∧ primaryMoveEvent st dst src =
        { board := push_to_foundation st.board,
          past := st.current :: st.past,
          current := st.board,
          future := [] } := by
  refine ⟨receive_from_empty_src k d m hm, ?_⟩
  have hm2 : 1 ≤ (1 + count_empty st.board.tableau) * (1 + count_empty st.board.reserve) :=
    Nat.one_le_iff_ne_zero.mpr (Nat.mul_ne_zero (by omega) (by omega))
  have hA : applyReceive st.board dst src = (st.board, true) := by
    simp only [applyReceive, h,
      receive_dispatch_empty_src (kindOf dst) (boardGet st.board dst) _ hm2]
    have h1 : boardSet st.board src ([] : List Card) = st.board := by
      rw [← h]
      exact boardSet_get_self st.board src
    rw [h1, boardSet_get_self]
  simp only [primaryMoveEvent, hA, if_true, save_board_state]

theorem empty_source_receive_witness :
    receive_from .tableau [⟨3, 2⟩] [] 2 = ([⟨3, 2⟩], [], true)
      ∧ primaryMoveEvent st0 (.tab 0) (.tab 3) =
        { board := push_to_foundation st0.board,
          past := st0.current :: st0.past,
          current := st0.board,
          future := [] } :=
  empty_source_receive st0 (.tab 0) (.tab 3) .tableau [⟨3, 2⟩] 2 (by decide) (by decide)
